import Mathlib

/-!
Verification of the Floral-Reading e-book reader's core state logic.

The development is a shallow embedding of the reader's user-data store
(src/unnamed/part_000, `utils/storage`), the annotation / selection /
search / inline-AI-note state of the `Reader` component
(src/components/Reader.tsx) and the library import logic of the `App`
component (src/unnamed/part_001).  JavaScript strings are modelled as
Lean `String` / `List Char`, JS numbers that are only stored and compared
as `Rat`, timestamps as `Nat`, and the single-threaded event loop as pure
state-transition functions: each event handler is a function from the
component state (plus the persisted store where it saves) to the new
state.  `localStorage` holding one JSON object keyed by book id is
modelled as an association list with JS-object update semantics.
-/

namespace Lumina

/-! ## Persisted data model (src/types.ts) -/

/-- `BookmarkData` of types.ts. -/
structure BookmarkData where
  cfi : String
  text : String
  date : String
deriving DecidableEq, Repr

/-- The `Annotation` record of types.ts (`type: 'annotation'` is a constant
tag and is omitted).  Named `AnnotationData` here. -/
structure AnnotationData where
  cfiRange : String
  text : String
  note : String
  color : String
  style : String
  tags : List String
  date : String
deriving DecidableEq, Repr

/-- `BookUserData` of types.ts as it lives in storage.  Every field is an
`Option` because `saveUserData` receives a `Partial<BookUserData>` and the
stored bundle is built up field by field (a freshly created bundle has only
the fields so far saved). -/
structure BookUserData where
  id : Option String := none
  lastCfi : Option String := none
  progress : Option Rat := none
  bookmarks : Option (List BookmarkData) := none
  annotations : Option (List AnnotationData) := none
  lastRead : Option Nat := none
deriving DecidableEq, Repr

/-- The bundle with no fields: what `...store[bookId]` spreads when the book
has never been saved (`store[bookId]` is `undefined`). -/
def emptyUserData : BookUserData := {}

/-- One JS object spread `{ ...old, ...upd }` at one field: the update's
value when the update names the field, else the old value. -/
def mergeField {α : Type} (old upd : Option α) : Option α :=
  match upd with
  | some v => some v
  | none => old

/-- `{ ...old, ...upd }` over the whole `Partial<BookUserData>`. -/
def spreadUserData (old upd : BookUserData) : BookUserData where
  id := mergeField old.id upd.id
  lastCfi := mergeField old.lastCfi upd.lastCfi
  progress := mergeField old.progress upd.progress
  bookmarks := mergeField old.bookmarks upd.bookmarks
  annotations := mergeField old.annotations upd.annotations
  lastRead := mergeField old.lastRead upd.lastRead

/-- The JSON object under the `lumina_reader_data` key: book id to bundle.
JS object keys are unique; lookup finds the entry, assignment replaces it in
place or appends a new key. -/
abbrev Store := List (String × BookUserData)

/-- `store[bookId]` (JS property read; `undefined` is `none`). -/
def lookupStore : Store → String → Option BookUserData
  | [], _ => none
  | (k, b) :: rest, bookId => if k = bookId then some b else lookupStore rest bookId

/-- `store[bookId] = b` (JS property write: replace the key in place, or add
it when absent). -/
def setStore : Store → String → BookUserData → Store
  | [], bookId, b => [(bookId, b)]
  | (k, v) :: rest, bookId, b =>
      if k = bookId then (bookId, b) :: rest else (k, v) :: setStore rest bookId b

/-- `saveUserData` of utils/storage (src/unnamed/part_000 lines 10-23):
`store[bookId] = { ...store[bookId], ...data, id: bookId, lastRead: Date.now() }`.
The store passed in is the one just read back from `localStorage`, so every
save is a read-modify-write of the latest stored bundle.  `now` is
`Date.now()`. -/
def saveUserData (bookId : String) (data : BookUserData) (store : Store) (now : Nat) : Store :=
  let old := (lookupStore store bookId).getD emptyUserData
  let merged := { spreadUserData old data with id := some bookId, lastRead := some now }
  setStore store bookId merged

/-- `loadUserData` of utils/storage (src/unnamed/part_000 lines 25-33):
`store[bookId] || null`. -/
def loadUserData (store : Store) (bookId : String) : Option BookUserData :=
  lookupStore store bookId

theorem lookupStore_setStore_self (store : Store) (k : String) (b : BookUserData) :
    lookupStore (setStore store k b) k = some b := by
  induction store with
  | nil => simp [setStore, lookupStore]
  | cons p rest ih =>
      obtain ⟨k', v⟩ := p
      by_cases h : k' = k
      · simp [setStore, lookupStore, h]
      · simp [setStore, lookupStore, h, ih]

theorem lookupStore_setStore_other (store : Store) (k o : String) (b : BookUserData)
    (h : o ≠ k) : lookupStore (setStore store k b) o = lookupStore store o := by
  induction store with
  | nil => simp [setStore, lookupStore, Ne.symm h]
  | cons p rest ih =>
      obtain ⟨k', v⟩ := p
      by_cases hk : k' = k
      · subst hk
        simp [setStore, lookupStore, Ne.symm h]
      · simp only [setStore, if_neg hk, lookupStore]
        by_cases ho : k' = o
        · simp [ho]
        · simp [ho, ih]

/-! ## The rendering surface's overlay store (epub.js `rendition.annotations`)

`annotations.add(type, cfiRange, data, cb, className)` stores one overlay
under the key `(cfiRange, type)`, replacing any overlay already stored
under that key; `annotations.remove(cfiRange, type)` deletes that key and
is a silent no-op when the key is absent. -/

structure Overlay where
  cfiRange : String
  type : String
  className : String
deriving DecidableEq, Repr

/-- JS `String.prototype.trim()`: strip whitespace from both ends.
(Defined over `List Char` so that it reduces inside the kernel.) -/
def jsTrim (s : String) : String :=
  String.mk (((s.data.dropWhile Char.isWhitespace).reverse.dropWhile
    Char.isWhitespace).reverse)

/-- JS `String.prototype.endsWith(suf)`. -/
def strEndsWith (s suf : String) : Bool :=
  List.isSuffixOf suf.data s.data

/-- JS `String.prototype.toLowerCase()` (ASCII, which is all the id and
extension logic distinguishes). -/
def strToLower (s : String) : String :=
  String.mk (s.data.map Char.toLower)

/-- `rendition.annotations.add(type, cfiRange, {...}, undefined, className)`. -/
def addOverlay (ovs : List Overlay) (type cfiRange className : String) : List Overlay :=
  (ovs.filter fun o => !decide (o.cfiRange = cfiRange ∧ o.type = type)) ++
    [⟨cfiRange, type, className⟩]

/-- `rendition.annotations.remove(cfiRange, type)`. -/
def removeOverlay (ovs : List Overlay) (cfiRange type : String) : List Overlay :=
  ovs.filter fun o => !decide (o.cfiRange = cfiRange ∧ o.type = type)

/-! ## Reader component state (src/components/Reader.tsx) -/

/-- The `SelectionMenu` state of Reader.tsx (lines 24-30, `menu`). -/
structure SelectionMenu where
  visible : Bool
  x : Int
  y : Int
  cfiRange : Option String
  text : String
deriving DecidableEq, Repr

/-- `ActiveInlineNote` of types.ts.  `domNode` is the opaque identity of the
portal container element mounted in the content DOM (none for popup-mode and
TXT-mode notes, which render from state alone). -/
structure InlineNote where
  id : String
  cfi : String
  textContext : String
  aiResponse : String
  isLoading : Bool
  domNode : Option String
deriving DecidableEq, Repr

/-- `pendingAnnotation` state of Reader.tsx: `{cfi: string, text: string}`. -/
structure PendingAnn where
  cfi : String
  text : String
deriving DecidableEq, Repr

/-- The data the annotation modal passes to `handleSaveAnnotation`. -/
structure AnnotationInput where
  note : String
  color : String
  style : String
  tags : List String
deriving DecidableEq, Repr

/-- A result of the interactive search (`{cfi, excerpt}`, Reader.tsx 660-663). -/
structure InteractiveMatch where
  cfi : String
  excerpt : String
deriving DecidableEq, Repr

/-- The Reader component's state, one field per `useState`/DOM resource that
the verified handlers touch.  `mounts` records which paragraph currently has
an `inline-ai-portal-mount` container inserted right after it (paragraph
identity × container identity): the EPUB trigger's
`p.nextSibling.classList.contains('inline-ai-portal-mount')` check reads it,
`container.remove()` deletes from it. -/
structure ReaderState where
  menu : SelectionMenu
  currentCfi : String
  progress : Rat
  bookmarks : List BookmarkData
  annotations : List AnnotationData
  overlays : List Overlay
  inlineNotes : List InlineNote
  activePopupNote : Option InlineNote
  pendingAnn : Option PendingAnn
  editingAnn : Option AnnotationData
  searchMatches : List InteractiveMatch
  currentMatchIndex : Int
  displayedCfi : Option String
  mounts : List (String × String)
deriving DecidableEq, Repr

/-! ## Inline AI note handlers (Reader.tsx 120-192, 800-827, 1036-1048) -/

/-- `openInlinePanel(text, contextId, domNode?)` (Reader.tsx 123-140):
builds a note with a fresh uuid and either replaces the single popup note
(popup mode) or appends to `inlineNotes` (inline mode).  `freshId` is the
`uuidv4()` value. -/
def openInlinePanel (freshId : String) (text contextId : String)
    (domNode : Option String) (aiDisplayMode : String) (s : ReaderState) : ReaderState :=
  let newNote : InlineNote :=
    { id := freshId, cfi := contextId, textContext := text, aiResponse := "",
      isLoading := false, domNode := domNode }
  if aiDisplayMode = "popup" then { s with activePopupNote := some newNote }
  else { s with inlineNotes := s.inlineNotes ++ [newNote] }

/-- The TXT paragraph trigger's `onClick` (Reader.tsx 1036-1048).  The
trigger is rendered only for a non-blank paragraph; the handler looks up
`inlineNotes.find(n => n.id === 'txt-' + idx)` (Reader.tsx 1026) and returns
early when it finds one, else calls `openInlinePanel(para, 'txt-' + idx)`. -/
def txtTriggerClick (idx : Nat) (para : String) (freshId : String)
    (aiDisplayMode : String) (s : ReaderState) : ReaderState :=
  if (jsTrim para).length > 0 then
    match s.inlineNotes.find? (fun n => decide (n.id = "txt-" ++ toString idx)) with
    | some _ => s
    | none => openInlinePanel freshId para ("txt-" ++ toString idx) none aiDisplayMode s
  else s

/-- The EPUB per-paragraph `.ai-trigger` `onclick` (Reader.tsx 800-824).
`pid` is the identity of the clicked paragraph node, `nowMs` is
`Date.now()`, `freshNode` the container element the inline branch creates.
The handler returns early when the node right after the paragraph is an
`inline-ai-portal-mount`; otherwise popup mode opens a popup note and
inline mode inserts a container after the paragraph and opens a note in it. -/
def epubTriggerClick (pid : String) (paraText : String) (freshId freshNode : String)
    (nowMs : Nat) (aiDisplayMode : String) (s : ReaderState) : ReaderState :=
  if s.mounts.any (fun m => decide (m.1 = pid)) then s
  else if aiDisplayMode = "popup" then
    openInlinePanel freshId paraText ("p-" ++ toString nowMs) none aiDisplayMode s
  else
    let s' := { s with mounts := s.mounts ++ [(pid, freshNode)] }
    openInlinePanel freshId paraText ("p-" ++ toString nowMs) (some freshNode) aiDisplayMode s'

/-- `removeInlineNote(id)` (Reader.tsx 181-188): if the note exists and has
a DOM container, remove that container from the content, then filter the
note out of `inlineNotes`. -/
def removeInlineNote (id : String) (s : ReaderState) : ReaderState :=
  let s' :=
    match s.inlineNotes.find? (fun n => decide (n.id = id)) with
    | some n =>
        match n.domNode with
        | some node => { s with mounts := s.mounts.filter fun m => !decide (m.2 = node) }
        | none => s
    | none => s
  { s' with inlineNotes := s'.inlineNotes.filter fun n => !decide (n.id = id) }

/-! ## Annotation create / edit / delete (Reader.tsx 429-481, 551-563) -/

/-- `handleSaveAnnotation(data)` (Reader.tsx 429-475), the save action of the
annotation modal for both the create flow (`pendingAnnotation` set,
`editingAnnotation` null) and the edit flow (`editingAnnotation` set).
`dateIso` is `new Date().toISOString()`, `now` is `Date.now()` inside
`saveUserData`, `bookId` the open book's id (the save is skipped when no
book is open). -/
def handleSaveAnn (data : AnnotationInput) (dateIso : String) (bookId : Option String)
    (s : ReaderState) (store : Store) (now : Nat) : ReaderState × Store :=
  let cfi? := match s.editingAnn with
    | some e => some e.cfiRange
    | none => s.pendingAnn.map PendingAnn.cfi
  let text? := match s.editingAnn with
    | some e => some e.text
    | none => s.pendingAnn.map PendingAnn.text
  match cfi?, text? with
  | some cfi, some textContext =>
    -- `if (!cfi || !textContext) return;` — the empty string is falsy in JS
    if cfi = "" ∨ textContext = "" then (s, store)
    else
      let ovs := match s.editingAnn with
        | some _ => removeOverlay (removeOverlay s.overlays cfi "highlight") cfi "underline"
        | none => s.overlays
      let pfx := if data.style = "highlight" then "hl" else "ul"
      let ovs := addOverlay ovs data.style cfi (pfx ++ "-" ++ data.color)
      let newAnn : AnnotationData :=
        { cfiRange := cfi, text := textContext, note := data.note, color := data.color,
          style := data.style, tags := data.tags, date := dateIso }
      let updated := match s.editingAnn with
        | some _ => s.annotations.map fun a => if a.cfiRange = cfi then newAnn else a
        | none => s.annotations ++ [newAnn]
      let store' := match bookId with
        | some bid => saveUserData bid { annotations := some updated } store now
        | none => store
      ({ s with annotations := updated, overlays := ovs,
                pendingAnn := none, editingAnn := none }, store')
  | _, _ => (s, store)

/-- `handleRemoveAnnotation(cfi)` (Reader.tsx 551-563): remove both overlay
variants at the anchor, drop every stored annotation at the anchor, and
write the list back through `saveUserData` (re-stamping `lastRead`). -/
def handleRemoveAnn (cfi : String) (bookId : Option String)
    (s : ReaderState) (store : Store) (now : Nat) : ReaderState × Store :=
  let ovs := removeOverlay (removeOverlay s.overlays cfi "highlight") cfi "underline"
  let updated := s.annotations.filter fun a => !decide (a.cfiRange = cfi)
  let store' := match bookId with
    | some bid => saveUserData bid { annotations := some updated } store now
    | none => store
  ({ s with overlays := ovs, annotations := updated }, store')

/-! ## Relocation and resize (Reader.tsx 936-955) -/

/-- The `relocated` event's payload, as the handler reads it
(`location.start.cfi`). -/
structure RelocatedLocation where
  startCfi : String
deriving DecidableEq, Repr

/-- The `rendition.on('relocated')` handler (Reader.tsx 936-951).
`locationsLen` is `epubBook.locations.length()` and `pct` the value
`percentageFromCfi` returns for the new position (both belong to the
external pagination engine). -/
def onRelocated (loc : RelocatedLocation) (bookId : String) (locationsLen : Nat) (pct : Rat)
    (s : ReaderState) (store : Store) (now : Nat) : ReaderState × Store :=
  let s := { s with menu := { s.menu with visible := false }, currentCfi := loc.startCfi }
  if locationsLen > 0 then
    ({ s with progress := pct },
     saveUserData bookId { lastCfi := some loc.startCfi, progress := some pct } store now)
  else
    (s, saveUserData bookId { lastCfi := some loc.startCfi } store now)

/-- The `rendition.on('resized')` handler (Reader.tsx 953-955). -/
def onResized (s : ReaderState) : ReaderState :=
  { s with menu := { s.menu with visible := false } }

/-! ## Batch corpus scan (`performSearch`, Reader.tsx 583-627)

Text is handled as `List Char`: `textContent.replace(/\s+/g, ' ')` is
`collapseWs`, `toLowerCase()` maps `Char.toLower`, and
`String.prototype.indexOf(needle, start)` is `indexOfFrom` (first position
`≥ start` where the needle occurs, `none` for JS's `-1`). -/

/-- `replace(/\s+/g, ' ')`: every maximal run of whitespace becomes one
space.  `prevWs` says whether the previous character was part of a run. -/
def collapseWs (prevWs : Bool) : List Char → List Char
  | [] => []
  | c :: rest =>
      if c.isWhitespace then
        if prevWs then collapseWs true rest else ' ' :: collapseWs true rest
      else c :: collapseWs false rest

/-- `indexOfFrom` scanning positions `i, i+1, ...`; the fuel bounds the scan
at `hay.length + 1 - i` positions, past which no occurrence can start. -/
def indexOfFromAux (hay needle : List Char) : Nat → Nat → Option Nat
  | _, 0 => none
  | i, fuel + 1 =>
      if needle.isPrefixOf (hay.drop i) then some i
      else indexOfFromAux hay needle (i + 1) fuel

/-- `hay.indexOf(needle, start)` (JS), with `none` for `-1`. -/
def indexOfFrom (hay needle : List Char) (start : Nat) : Option Nat :=
  indexOfFromAux hay needle start (hay.length + 1 - start)

/-- `SearchMatch` as `performSearch` pushes it (Reader.tsx 611-616). -/
structure SearchMatch where
  cfi : String
  excerpt : String
  label : String
  context : String
deriving DecidableEq, Repr

/-- One spine item as the scan reads it: `href` and `idref` (JS strings,
empty = falsy), and the loaded document's body text, `none` when the item
is null, fails to load or has no body (the `continue` / `catch` paths). -/
structure SpineItem where
  href : String
  idref : String
  body : Option String
deriving DecidableEq, Repr

/-- The loaded epub as the scan sees it (`bookRef.current.spine`). -/
structure EpubBook where
  spine : List SpineItem
deriving DecidableEq, Repr

/-- The `while (index !== -1)` loop body of `performSearch` (Reader.tsx
606-622): push a match with a ±30-character excerpt, advance past the
occurrence, recompute `index`, and stop when `results.length > 500`.  The
fuel only bounds the iteration count; `performSearchUnit` supplies
`lowerText.length + 1`, which the advance of at least `query.length ≥ 2`
per step never exhausts. -/
def searchUnitLoop (cleanText lowerText lowerQuery : List Char) (href label : String) :
    Nat → Option Nat → List SearchMatch → List SearchMatch
  | _, none, results => results
  | 0, some _, results => results
  | fuel + 1, some index, results =>
      let start := index - 30
      let stop := min cleanText.length (index + lowerQuery.length + 30)
      let excerpt := String.mk ((cleanText.drop start).take (stop - start))
      let results := results ++ [⟨href, excerpt, label, excerpt⟩]
      let index' := indexOfFrom lowerText lowerQuery (index + lowerQuery.length)
      if results.length > 500 then results
      else searchUnitLoop cleanText lowerText lowerQuery href label fuel index' results

/-- The body of the `for` loop of `performSearch` for one spine item
(Reader.tsx 592-625): skip a null item / empty `href` / unloadable body,
else normalise the text and run the occurrence loop, appending to the
results accumulated over earlier spine items. -/
def performSearchUnit (lowerQuery : List Char) (i : Nat) (item : SpineItem)
    (results : List SearchMatch) : List SearchMatch :=
  if item.href = "" then results
  else
    match item.body with
    | none => results
    | some text =>
        let cleanText := collapseWs false text.data
        let lowerText := cleanText.map Char.toLower
        let label := if item.idref = "" then "Chapter " ++ toString (i + 1) else item.idref
        searchUnitLoop cleanText lowerText lowerQuery item.href label
          (lowerText.length + 1) (indexOfFrom lowerText lowerQuery 0) results

/-- `performSearch(query)` (Reader.tsx 583-627): `[]` when no book is
loaded or the query is shorter than 2 (`!query || query.length < 2`), else
the scan over every spine item in order. -/
def performSearch (bookLoaded : Option EpubBook) (query : String) : List SearchMatch :=
  match bookLoaded with
  | none => []
  | some book =>
      if query.length < 2 then []
      else
        let lowerQuery := query.data.map Char.toLower
        book.spine.enum.foldl (fun results p => performSearchUnit lowerQuery p.1 p.2 results) []

/-! ## Interactive search (Reader.tsx 629-746) -/

/-- `matches[i]` for a JS array index that may be `-1` (the unset cursor):
out-of-range reads give `undefined`. -/
def getMatchI (l : List InteractiveMatch) (i : Int) : Option InteractiveMatch :=
  if i < 0 then none else l.get? i.toNat

/-- `updateActiveSearchHighlight(index, matches)` (Reader.tsx 712-725):
demote the previously active match to the plain style, move the cursor,
promote the new match to the active style and navigate the rendition to it.
On `getMatchI matches index = none` the source would fault reading
`match.cfi` of `undefined`; both call sites guard `index` into range, so
that branch returns the state unchanged here and is never taken below. -/
def updateActiveSearchHighlight (index : Int) (ms : List InteractiveMatch)
    (s : ReaderState) : ReaderState :=
  let ovs :=
    match (if s.currentMatchIndex ≠ -1 then getMatchI ms s.currentMatchIndex else none) with
    | some old =>
        addOverlay (removeOverlay s.overlays old.cfi "highlight") "highlight" old.cfi
          "search-result"
    | none => s.overlays
  let s := { s with currentMatchIndex := index, overlays := ovs }
  match getMatchI ms index with
  | none => s
  | some m =>
      { s with
        overlays := addOverlay (removeOverlay s.overlays m.cfi "highlight") "highlight" m.cfi
          "search-result-active",
        displayedCfi := some m.cfi }

/-- `nextSearchMatch(indexOverride?, resultsOverride?)` (Reader.tsx 694-702). -/
def nextSearchMatch (indexOverride : Option Int)
    (resultsOverride : Option (List InteractiveMatch)) (s : ReaderState) : ReaderState :=
  let ms := resultsOverride.getD s.searchMatches
  if ms.length = 0 then s
  else
    let nextIndex := indexOverride.getD (s.currentMatchIndex + 1)
    let nextIndex := if nextIndex ≥ (ms.length : Int) then 0 else nextIndex
    updateActiveSearchHighlight nextIndex ms s

/-- `prevSearchMatch()` (Reader.tsx 704-710). -/
def prevSearchMatch (s : ReaderState) : ReaderState :=
  if s.searchMatches.length = 0 then s
  else
    let nextIndex := s.currentMatchIndex - 1
    let nextIndex := if nextIndex < 0 then (s.searchMatches.length : Int) - 1 else nextIndex
    updateActiveSearchHighlight nextIndex s.searchMatches s

/-- The overlay-clearing loop at the top of `handleInteractiveSearch`
(Reader.tsx 636-648): walk a snapshot of the stored overlays and remove
every one whose `type` is `search-result` or `search-result-active`.
(Search overlays are stored with type `highlight` and CLASS NAME
`search-result`, so this predicate matches none of them.) -/
def clearSearchTypedOverlays (ovs : List Overlay) : List Overlay :=
  ovs.foldl
    (fun acc note =>
      if note.type = "search-result" ∨ note.type = "search-result-active" then
        removeOverlay acc note.cfiRange note.type
      else acc)
    ovs

/-- `handleInteractiveSearch()` (Reader.tsx 629-679).  `flatResults` is the
flattened output of the per-spine-item native `item.find(searchQuery)`
calls (the rendering engine's search, an external collaborator). -/
def handleInteractiveSearch (query : String) (flatResults : List InteractiveMatch)
    (s : ReaderState) : ReaderState :=
  if jsTrim query = "" then s
  else
    let s := { s with currentMatchIndex := -1 }
    let s := { s with overlays := clearSearchTypedOverlays s.overlays }
    let s := { s with searchMatches := flatResults }
    if flatResults.length > 0 then
      let s := { s with
        overlays := flatResults.foldl
          (fun acc r => addOverlay acc "highlight" r.cfi "search-result") s.overlays }
      nextSearchMatch (some 0) (some flatResults) s
    else s

/-- `k` applications of the parameterless `nextSearchMatch()` (the Next
button / Enter key, Reader.tsx 1202, 684). -/
def iterNext : Nat → ReaderState → ReaderState
  | 0, s => s
  | k + 1, s => iterNext k (nextSearchMatch none none s)

/-! ## Library import (`handleAddBook`, src/unnamed/part_001 lines 75-148) -/

/-- A library entry as `handleAddBook` builds it (the fields the id logic
and the duplicate check read). -/
structure Book where
  id : String
  title : String
  author : String
  type : String
deriving DecidableEq, Repr

/-- `` `${title}-${author}`.toLowerCase().replace(/[^a-z0-9]/g, '') ``
(part_001 line 124): join with a hyphen, lower-case, then DELETE every
character that is not an ASCII lower-case letter or digit — including the
hyphen itself.  (`Char.toLower` lower-cases ASCII; non-ASCII letters are
removed by the `[^a-z0-9]` class either way.) -/
def normalizeIdString (title author : String) : String :=
  String.mk (((title ++ "-" ++ author).data.map Char.toLower).filter
    fun c => c.isLower || c.isDigit)

/-- `const id = idString || uuidv4();` (part_001 line 125): the normalized
string, or a fresh uuid when it is empty (JS falsy). -/
def deriveBookId (title author : String) (freshUuid : String) : String :=
  let idString := normalizeIdString title author
  if idString = "" then freshUuid else idString

/-- `file.name.toLowerCase().endsWith(ext)` sniffing (part_001 lines 77-79). -/
def sniffFileType (name : String) : String :=
  let lower := strToLower name
  if strEndsWith lower ".epub" then "epub"
  else if strEndsWith lower ".txt" then "txt"
  else if strEndsWith lower ".pdf" then "pdf"
  else "unsupported"

/-- `file.name.replace(/\.(epub|txt|pdf)$/i, '')` (part_001 line 96). -/
def stripBookExt (name : String) : String :=
  let lower := strToLower name
  if strEndsWith lower ".epub" then String.mk (name.data.take (name.length - 5))
  else if strEndsWith lower ".txt" then String.mk (name.data.take (name.length - 4))
  else if strEndsWith lower ".pdf" then String.mk (name.data.take (name.length - 4))
  else name

/-- The title/author a plain-text import gets (part_001 lines 96-97): the
file name without its extension, and the fixed `'Unknown Author'` (only the
EPUB path reads metadata). -/
def txtImportMeta (fileName : String) : String × String :=
  (stripBookExt fileName, "Unknown Author")

/-- `setBooks(prev => ...)` of `handleAddBook` (part_001 lines 138-142):
skip the append when an entry with the same id exists. -/
def addBookDedup (books : List Book) (newBook : Book) : List Book :=
  if books.any (fun b => decide (b.id = newBook.id)) then books else books ++ [newBook]

/-! ## Reference states and helper functions for the theorems -/

/-- The selection menu's initial (hidden) state (Reader.tsx 52). -/
def initialMenu : SelectionMenu :=
  { visible := false, x := 0, y := 0, cfiRange := none, text := "" }

/-- The Reader component's state as every `useState` initialises it
(Reader.tsx 50-84), with no overlay and no mounted portal container. -/
def initialReaderState : ReaderState :=
  { menu := initialMenu, currentCfi := "", progress := 0, bookmarks := [],
    annotations := [], overlays := [], inlineNotes := [], activePopupNote := none,
    pendingAnn := none, editingAnn := none, searchMatches := [],
    currentMatchIndex := -1, displayedCfi := none, mounts := [] }

/-- How many stored annotations sit at anchor `x`. -/
def countAnchor (l : List AnnotationData) (x : String) : Nat :=
  (l.filter fun a => decide (a.cfiRange = x)).length

/-! ### List helper lemmas -/

theorem find?_filter_not {α : Type} (l : List α) (p : α → Bool) :
    (l.filter fun a => !p a).find? p = none := by
  induction l with
  | nil => rfl
  | cons a rest ih =>
      by_cases h : p a = true
      · simp [List.filter_cons, h, ih]
      · simp [List.filter_cons, h, List.find?_cons, ih]

theorem filter_idem {α : Type} (l : List α) (p : α → Bool) :
    (l.filter p).filter p = l.filter p := by
  induction l with
  | nil => rfl
  | cons a rest ih =>
      by_cases h : p a = true <;> simp [List.filter_cons, h, ih]

theorem filter_four {α : Type} (l : List α) (p q : α → Bool) :
    (((l.filter p).filter q).filter p).filter q = (l.filter p).filter q := by
  simp only [List.filter_filter]
  apply List.filter_congr
  intro a _
  cases p a <;> cases q a <;> rfl

theorem countAnchor_append (l₁ l₂ : List AnnotationData) (x : String) :
    countAnchor (l₁ ++ l₂) x = countAnchor l₁ x + countAnchor l₂ x := by
  simp [countAnchor, List.filter_append]

theorem countAnchor_map_replace (l : List AnnotationData) (cfi x : String)
    (na : AnnotationData) (hna : na.cfiRange = cfi) :
    countAnchor (l.map fun a => if a.cfiRange = cfi then na else a) x =
      countAnchor l x := by
  induction l with
  | nil => rfl
  | cons a rest ih =>
      simp only [List.map_cons]
      by_cases h : a.cfiRange = cfi
      · by_cases hx : cfi = x
        · simp [countAnchor, List.filter_cons, h, hna, hx] at ih ⊢
          omega
        · simp [countAnchor, List.filter_cons, h, hna, hx] at ih ⊢
          exact ih
      · simp only [if_neg h]
        by_cases hx : a.cfiRange = x <;>
          simp [countAnchor, List.filter_cons, hx] at ih ⊢ <;> omega

/-! ## C7 -/

/-- C7: `saveUserData(bookId, partial)` is a read-modify-write against the
latest stored bundle: the stored result for `bookId` merges the partial's
fields into the bundle read from the store, re-stamps `lastRead` with the
save time (and `id` with the book id), keeps every field of the old bundle
the partial does not name, and leaves every other book's bundle unchanged. -/
theorem saveUserData_read_modify_write (store : Store) (bookId : String)
    (data : BookUserData) (now : Nat) :
    (∃ nb, lookupStore (saveUserData bookId data store now) bookId = some nb ∧
       nb.lastRead = some now ∧ nb.id = some bookId ∧
       (data.lastCfi = none →
         nb.lastCfi = ((lookupStore store bookId).getD emptyUserData).lastCfi) ∧
       (data.progress = none →
         nb.progress = ((lookupStore store bookId).getD emptyUserData).progress) ∧
       (data.bookmarks = none →
         nb.bookmarks = ((lookupStore store bookId).getD emptyUserData).bookmarks) ∧
       (data.annotations = none →
         nb.annotations = ((lookupStore store bookId).getD emptyUserData).annotations) ∧
       (∀ v, data.lastCfi = some v → nb.lastCfi = some v) ∧
       (∀ v, data.progress = some v → nb.progress = some v) ∧
       (∀ v, data.bookmarks = some v → nb.bookmarks = some v) ∧
       (∀ v, data.annotations = some v → nb.annotations = some v)) ∧
    (∀ o, o ≠ bookId →
       lookupStore (saveUserData bookId data store now) o = lookupStore store o) := by
  constructor
  · refine ⟨_, lookupStore_setStore_self store bookId _, rfl, rfl, ?_, ?_, ?_, ?_,
      ?_, ?_, ?_, ?_⟩ <;>
      first
        | (intro h; simp [spreadUserData, h, mergeField])
        | (intro v h; simp [spreadUserData, h, mergeField])
  · intro o ho
    exact lookupStore_setStore_other store bookId o _ ho

/-! ## C9 -/

/-- C9: processing a `relocated` event or a `resized` event always leaves
the selection menu hidden, whatever state it was in. -/
theorem relocated_resized_hide_menu (loc : RelocatedLocation) (bookId : String)
    (locationsLen : Nat) (pct : Rat) (s : ReaderState) (store : Store) (now : Nat) :
    (onRelocated loc bookId locationsLen pct s store now).1.menu.visible = false ∧
    (onResized s).menu.visible = false := by
  constructor
  · simp only [onRelocated]
    split <;> rfl
  · rfl

/-! ## C10 -/

/-- C10: the batch corpus scan returns the empty match list whenever no
book is loaded, and whenever the query is shorter than 2 characters (so
single-character and empty queries always produce zero results). -/
theorem performSearch_guard_empty :
    (∀ query, performSearch none query = []) ∧
    (∀ bookLoaded query, query.length < 2 → performSearch bookLoaded query = []) := by
  constructor
  · intro query; rfl
  · intro bookLoaded query h
    cases bookLoaded with
    | none => rfl
    | some book => simp [performSearch, h]

/-! ## C1 -/

/-- The annotation modal's payload used by the concrete scenarios. -/
def annModalData : AnnotationInput :=
  { note := "", color := "yellow", style := "highlight", tags := [] }

/-- First create-flow save: a selection at anchor `X` is pending, nothing
is being edited. -/
def c1FirstSave : ReaderState × Store :=
  handleSaveAnn annModalData "2024-01-01" (some "book-1")
    { initialReaderState with pendingAnn := some ⟨"X", "quoted text"⟩ } [] 1

/-- Second create-flow save at the same anchor `X` (a fresh selection over
the same range: `pendingAnnotation` set again, `editingAnnotation` null). -/
def c1SecondSave : ReaderState × Store :=
  handleSaveAnn annModalData "2024-01-02" (some "book-1")
    { c1FirstSave.1 with pendingAnn := some ⟨"X", "quoted text"⟩ } c1FirstSave.2 2

/-- C1 counterexample: creating an annotation at anchor `X` twice through
the create flow leaves TWO annotations at `X` — the second create appends
instead of overwriting, so the list does not contain exactly one annotation
at `X`. -/
theorem handleSaveAnn_create_duplicate_cex :
    countAnchor c1SecondSave.1.annotations "X" = 2 := by decide

/-- C1 (amended): only the edit flow is keyed on anchor equality.  A
create-flow save (`editingAnnotation` null, `pendingAnnotation` at anchor
`p.cfi`) appends one annotation at `p.cfi` and changes no other anchor's
count — so a second create at an occupied anchor duplicates rather than
overwrites.  An edit-flow save (`editingAnnotation` set) preserves every
anchor's count and rewrites every stored annotation at the edited anchor to
the newly entered record. -/
theorem handleSaveAnn_edit_replaces_create_appends
    (data : AnnotationInput) (dateIso : String) (bid : Option String)
    (s : ReaderState) (store : Store) (now : Nat) :
    (∀ p, s.editingAnn = none → s.pendingAnn = some p → p.cfi ≠ "" → p.text ≠ "" →
       ∀ x, countAnchor (handleSaveAnn data dateIso bid s store now).1.annotations x =
         countAnchor s.annotations x + (if p.cfi = x then 1 else 0)) ∧
    (∀ e, s.editingAnn = some e → e.cfiRange ≠ "" → e.text ≠ "" →
       (∀ x, countAnchor (handleSaveAnn data dateIso bid s store now).1.annotations x =
          countAnchor s.annotations x) ∧
       (∀ a, a ∈ (handleSaveAnn data dateIso bid s store now).1.annotations →
          a.cfiRange = e.cfiRange →
          a = { cfiRange := e.cfiRange, text := e.text, note := data.note,
                color := data.color, style := data.style, tags := data.tags,
                date := dateIso })) := by
  constructor
  · intro p hedit hpend hcfi htext x
    simp only [handleSaveAnn, hedit, hpend, Option.map_some']
    rw [if_neg (by simp [hcfi, htext])]
    simp only [countAnchor_append]
    by_cases hx : p.cfi = x <;> simp [countAnchor, List.filter_cons, hx]
  · intro e hedit hcfi htext
    constructor
    · intro x
      simp only [handleSaveAnn, hedit]
      rw [if_neg (by simp [hcfi, htext])]
      simp only []
      exact countAnchor_map_replace s.annotations e.cfiRange x _ rfl
    · intro a ha hax
      simp only [handleSaveAnn, hedit] at ha
      rw [if_neg (by simp [hcfi, htext])] at ha
      simp only [List.mem_map] at ha
      obtain ⟨b, _, hb⟩ := ha
      by_cases hbc : b.cfiRange = e.cfiRange
      · rw [if_pos hbc] at hb
        exact hb.symm
      · rw [if_neg hbc] at hb
        exact absurd (hb ▸ hax) hbc

/-! ## C3 -/

/-- A search-bar state with two matches and the cursor still unset
(`currentMatchIndex = -1`, its initial value, also re-set by
`handleInteractiveSearch` before results arrive). -/
def c3TwoMatchState : ReaderState :=
  { initialReaderState with
    searchMatches := [⟨"epubcfi(m0)", "first"⟩, ⟨"epubcfi(m1)", "second"⟩] }

/-- C3 counterexample: with N = 2 matches, two `nextSearchMatch()` calls
from the unset cursor land on match 1 (the LAST match), not back on match
0 — returning to the first match from the unset cursor takes N + 1 calls,
not N. -/
theorem searchCursor_next_cex :
    (iterNext 2 c3TwoMatchState).currentMatchIndex = 1 ∧
    (iterNext 2 c3TwoMatchState).currentMatchIndex ≠ 0 := by decide

/-! ## C4 -/

/-- First interactive search: one native match at `epubcfi(A)`. -/
def c4FirstSearch : ReaderState :=
  handleInteractiveSearch "alpha" [⟨"epubcfi(A)", "alpha excerpt"⟩] initialReaderState

/-- Second interactive search, different query, one match at `epubcfi(B)`. -/
def c4SecondSearch : ReaderState :=
  handleInteractiveSearch "beta" [⟨"epubcfi(B)", "beta excerpt"⟩] c4FirstSearch

/-- C4: re-issuing a query does NOT clear the previous query's match
overlays: after searching `beta`, the overlay the `alpha` search left at
`epubcfi(A)` is still stored (the clearing loop tests `note.type ===
'search-result'`, but search overlays are stored with type `highlight` and
class name `search-result`, so it removes nothing and overlays accumulate
across searches). -/
theorem interactiveSearch_overlays_accumulate :
    (c4FirstSearch.overlays.filter fun o => decide (o.cfiRange = "epubcfi(A)")).length
      = 1 ∧
    (c4SecondSearch.overlays.filter fun o => decide (o.cfiRange = "epubcfi(A)")).length
      = 1 ∧
    c4SecondSearch.overlays.length = 2 := by decide

/-! ## C5 -/

/-- C5 counterexample: the id derived for title `Alpha`, author `Bob` is
`alphabob`, not the claimed slug `alpha-bob` — `replace(/[^a-z0-9]/g, '')`
deletes the hyphen too.  Moreover a plain-text import never sees an author:
`handleAddBook` hardcodes `'Unknown Author'` for TXT files, so importing
`Alpha.txt` yields `alphaunknownauthor`. -/
theorem deriveBookId_slug_cex :
    deriveBookId "Alpha" "Bob" "3f2a-uuid" = "alphabob" ∧
    deriveBookId "Alpha" "Bob" "3f2a-uuid" ≠ "alpha-bob" ∧
    deriveBookId (txtImportMeta "Alpha.txt").1 (txtImportMeta "Alpha.txt").2 "3f2a-uuid"
      = "alphaunknownauthor" := by decide

/-- C5 (amended): the derived id is `title`-`author` lower-cased with every
character outside `[a-z0-9]` removed (hyphen included); the uuid fallback
is used exactly when that string is empty; a plain-text import always uses
author `Unknown Author`; and adding a book whose id is already in the
library leaves the library unchanged (re-importing the same book never
creates a second entry). -/
theorem bookImport_id_amended :
    (∀ t a u, normalizeIdString t a ≠ "" → deriveBookId t a u = normalizeIdString t a) ∧
    (∀ t a u, normalizeIdString t a = "" → deriveBookId t a u = u) ∧
    (∀ name, (txtImportMeta name).2 = "Unknown Author") ∧
    (∀ books b, (books.any fun b' => decide (b'.id = b.id)) = true →
       addBookDedup books b = books) ∧
    (∀ books b, addBookDedup (addBookDedup books b) b = addBookDedup books b) := by
  refine ⟨?_, ?_, ?_, ?_, ?_⟩
  · intro t a u h; simp [deriveBookId, h]
  · intro t a u h; simp [deriveBookId, h]
  · intro name; rfl
  · intro books b h; simp [addBookDedup, h]
  · intro books b
    by_cases h : (books.any fun b' => decide (b'.id = b.id)) = true
    · simp [addBookDedup, h]
    · simp only [addBookDedup, if_neg h]
      rw [if_pos]
      simp [List.any_append]

/-! ## C6 -/

/-- First click on the TXT paragraph 0 trigger (inline display mode): a
note is opened for context id `txt-0`. -/
def c6FirstClick : ReaderState :=
  txtTriggerClick 0 "Paragraph text" "11111111-uuid" "inline" initialReaderState

/-- Second click on the same trigger while the first note is in state. -/
def c6SecondClick : ReaderState :=
  txtTriggerClick 0 "Paragraph text" "22222222-uuid" "inline" c6FirstClick

/-- C6: re-clicking the TXT paragraph's affordance is NOT a no-op: the
guard looks for a note whose `id` equals `txt-0`, but notes are created
with a uuid `id` (the trigger string goes into `cfi`), so the lookup never
matches, the `// Already open` early-return never fires, and the second
click appends a duplicate note for the same trigger. -/
theorem txtTrigger_reclick_duplicates :
    (c6SecondClick.inlineNotes.filter fun n => decide (n.cfi = "txt-0")).length = 2 ∧
    c6FirstClick.inlineNotes.length = 1 := by decide

/-! ## C8 -/

/-- A state holding one annotation at anchor `X` (overlays empty: the
overlay removal is a silent no-op either way). -/
def c8OneAnnState : ReaderState :=
  { initialReaderState with
    annotations := [⟨"X", "quoted", "", "yellow", "highlight", [], "2024-01-01"⟩] }

/-- First delete of anchor `X`, at time 1. -/
def c8FirstDelete : ReaderState × Store :=
  handleRemoveAnn "X" (some "book-1") c8OneAnnState [] 1

/-- Second delete of the same anchor, at time 2. -/
def c8SecondDelete : ReaderState × Store :=
  handleRemoveAnn "X" (some "book-1") c8FirstDelete.1 c8FirstDelete.2 2

/-- C8 counterexample: the second delete of the same anchor leaves the
component state unchanged, but it is not free of observable state change:
it re-saves the bundle, so the persisted store is re-stamped (`lastRead`
moves from 1 to 2) and the two stores differ. -/
theorem doubleDelete_restamps_cex :
    c8SecondDelete.1 = c8FirstDelete.1 ∧
    c8SecondDelete.2 ≠ c8FirstDelete.2 ∧
    (lookupStore c8FirstDelete.2 "book-1").map BookUserData.lastRead = some (some 1) ∧
    (lookupStore c8SecondDelete.2 "book-1").map BookUserData.lastRead = some (some 2) := by
  decide

/-! ## C2 -/

theorem searchUnitLoop_length_le (ct lt lq : List Char) (href label : String) :
    ∀ (fuel : Nat) (idx : Option Nat) (results : List SearchMatch),
      (searchUnitLoop ct lt lq href label fuel idx results).length ≤
        max results.length 500 + 1 := by
  intro fuel
  induction fuel with
  | zero =>
      intro idx results
      cases idx <;> simp [searchUnitLoop] <;> omega
  | succ n ih =>
      intro idx results
      cases idx with
      | none => simp only [searchUnitLoop]; omega
      | some index =>
          simp only [searchUnitLoop]
          split
          · next h =>
              simp only [List.length_append, List.length_singleton]
              omega
          · next h =>
              refine le_trans (ih _ _) ?_
              simp only [List.length_append, List.length_singleton] at h ⊢
              omega

theorem performSearchUnit_length_le (lq : List Char) (i : Nat) (item : SpineItem)
    (results : List SearchMatch) :
    (performSearchUnit lq i item results).length ≤ max results.length 500 + 1 := by
  by_cases h : item.href = ""
  · simp only [performSearchUnit, if_pos h]
    omega
  · simp only [performSearchUnit, if_neg h]
    cases hb : item.body with
    | none => simp only []; omega
    | some text =>
        simp only []
        exact searchUnitLoop_length_le _ _ _ _ _ _ _ _

theorem scan_foldl_length_le (lq : List Char) :
    ∀ (items : List (Nat × SpineItem)) (acc : List SearchMatch),
      ((items.foldl (fun results p => performSearchUnit lq p.1 p.2 results) acc).length)
        ≤ max acc.length 500 + items.length := by
  intro items
  induction items with
  | nil =>
      intro acc
      simp only [List.foldl_nil, List.length_nil]
      omega
  | cons u rest ih =>
      intro acc
      simp only [List.foldl_cons, List.length_cons]
      refine le_trans (ih _) ?_
      have h1 := performSearchUnit_length_le lq u.1 u.2 acc
      omega

/-- C2 (amended): the batch scan is not capped at 500: the
`results.length > 500` check only breaks the per-unit occurrence loop, so
the total can pass 500 inside one unit (reaching 501) and grow by up to one
more match for every later unit.  The provable bound is
`500 + number of spine items`, not 500. -/
theorem performSearch_length_le (book : EpubBook) (query : String) :
    (performSearch (some book) query).length ≤ 500 + book.spine.length := by
  by_cases h : query.length < 2
  · simp [performSearch, h]
  · simp only [performSearch, if_neg h]
    have := scan_foldl_length_le (query.data.map Char.toLower) book.spine.enum []
    simp only [List.length_nil, List.enum_length] at this
    omega

/-- `n` back-to-back copies of `ab`: the chapter text for the C2
counterexample, in which the query `ab` occurs `n` times. -/
def abRep : Nat → List Char
  | 0 => []
  | n + 1 => 'a' :: 'b' :: abRep n

/-- A one-chapter corpus whose text holds the query `ab` 501 times. -/
def c2BigText : String := String.mk (abRep 501)

/-- The loaded book for the C2 counterexample. -/
def c2Book : EpubBook := ⟨[{ href := "ch1.xhtml", idref := "ch1", body := some c2BigText }]⟩

theorem abRep_length (n : Nat) : (abRep n).length = 2 * n := by
  induction n with
  | zero => rfl
  | succ k ih => simp [abRep, ih]; omega

theorem abRep_collapseWs (n : Nat) : collapseWs false (abRep n) = abRep n := by
  have ha : 'a'.isWhitespace = false := by decide
  have hb : 'b'.isWhitespace = false := by decide
  induction n with
  | zero => rfl
  | succ k ih => simp [abRep, collapseWs, ha, hb, ih]

theorem abRep_toLower (n : Nat) : (abRep n).map Char.toLower = abRep n := by
  have ha : Char.toLower 'a' = 'a' := by decide
  have hb : Char.toLower 'b' = 'b' := by decide
  induction n with
  | zero => rfl
  | succ k ih => simp [abRep, ha, hb, ih]

theorem abRep_drop (n k : Nat) (h : k ≤ n) : (abRep n).drop (2 * k) = abRep (n - k) := by
  induction k generalizing n with
  | zero => simp
  | succ j ih =>
      obtain ⟨m, hm⟩ : ∃ m, n = m + 1 := ⟨n - 1, by omega⟩
      subst hm
      rw [show abRep (m + 1) = 'a' :: 'b' :: abRep m from rfl,
        show 2 * (j + 1) = (2 * j + 1) + 1 from by ring,
        List.drop_succ_cons, List.drop_succ_cons,
        show m + 1 - (j + 1) = m - j from by omega]
      exact ih m (by omega)

theorem c2_isPrefixOf (xs : List Char) :
    List.isPrefixOf ['a', 'b'] ('a' :: 'b' :: xs) = true := by
  simp [List.isPrefixOf]

theorem c2_indexOfFrom (k : Nat) (hk : k < 501) :
    indexOfFrom (abRep 501) ['a', 'b'] (2 * k) = some (2 * k) := by
  unfold indexOfFrom
  rw [abRep_length]
  obtain ⟨f, hf⟩ : ∃ f, 2 * 501 + 1 - 2 * k = f + 1 := ⟨2 * 501 - 2 * k, by omega⟩
  rw [hf]
  unfold indexOfFromAux
  rw [abRep_drop 501 k (by omega)]
  obtain ⟨m, hm⟩ : ∃ m, 501 - k = m + 1 := ⟨501 - k - 1, by omega⟩
  rw [hm, show abRep (m + 1) = 'a' :: 'b' :: abRep m from rfl,
    if_pos (c2_isPrefixOf (abRep m))]

theorem c2_searchUnitLoop (href label : String) :
    ∀ (m k : Nat) (results : List SearchMatch) (fuel : Nat),
      k < 501 → m + k = 501 → results.length = k → m ≤ fuel →
      (searchUnitLoop (abRep 501) (abRep 501) ['a', 'b'] href label fuel
          (some (2 * k)) results).length = 501 := by
  intro m
  induction m with
  | zero =>
      intro k results fuel hk hm _ _
      exact absurd hm (by omega)
  | succ j ih =>
      intro k results fuel hk hm hres hfuel
      obtain ⟨f, hf⟩ : ∃ f, fuel = f + 1 := ⟨fuel - 1, by omega⟩
      subst hf
      simp only [searchUnitLoop]
      by_cases hcap : k + 1 > 500
      · rw [if_pos (by simp [List.length_append, hres]; omega)]
        simp [List.length_append, hres]
        omega
      · rw [if_neg (by simp [List.length_append, hres]; omega)]
        have hidx2 : 2 * k + (['a', 'b'] : List Char).length = 2 * (k + 1) := by
          simp
          ring
        rw [hidx2, c2_indexOfFrom (k + 1) (by omega)]
        exact ih (k + 1) _ f (by omega) (by omega) (by simp [List.length_append, hres])
          (by omega)

/-- `performSearch` on a loaded book with one spine item, query long
enough: one run of the per-unit scan on the empty accumulator. -/
theorem performSearch_one_unit (item : SpineItem) (query : String)
    (h2 : ¬query.length < 2) :
    performSearch (some ⟨[item]⟩) query =
      performSearchUnit (query.data.map Char.toLower) 0 item [] := by
  rw [performSearch, if_neg h2]
  rfl

/-- `performSearchUnit` on a loadable item with a non-empty href: the
occurrence loop on the normalised text. -/
theorem performSearchUnit_some (lq : List Char) (i : Nat) (href idref text : String)
    (results : List SearchMatch) (hh : ¬href = "") :
    performSearchUnit lq i ⟨href, idref, some text⟩ results =
      searchUnitLoop (collapseWs false text.data)
        ((collapseWs false text.data).map Char.toLower) lq href
        (if idref = "" then "Chapter " ++ toString (i + 1) else idref)
        (((collapseWs false text.data).map Char.toLower).length + 1)
        (indexOfFrom ((collapseWs false text.data).map Char.toLower) lq 0)
        results := by
  unfold performSearchUnit
  dsimp only
  rw [if_neg hh]

/-- C2 counterexample: scanning a single unit that matches the query 501
times returns 501 matches — the match list exceeds the claimed hard cap of
500 (the `> 500` break is off by one and only exits the inner per-unit
loop, after the push). -/
theorem performSearch_cap_cex :
    500 < (performSearch (some c2Book) "ab").length := by
  have h0 : indexOfFrom (abRep 501) ['a', 'b'] 0 = some 0 := by
    simpa using c2_indexOfFrom 0 (by omega)
  have hl := c2_searchUnitLoop "ch1.xhtml" "ch1" 501 0 [] (2 * 501 + 1) (by omega)
    (by omega) rfl (by omega)
  simp only [Nat.mul_zero] at hl
  have h : (performSearch (some c2Book) "ab").length = 501 := by
    rw [show c2Book = (⟨[⟨"ch1.xhtml", "ch1", some c2BigText⟩]⟩ : EpubBook) from rfl]
    rw [performSearch_one_unit _ _ (by decide)]
    rw [performSearchUnit_some _ _ _ _ _ _ (by decide)]
    rw [show c2BigText.data = abRep 501 from rfl]
    rw [show ("ab".data.map Char.toLower) = ['a', 'b'] from by decide]
    rw [abRep_collapseWs, abRep_toLower, abRep_length,
      if_neg (show ¬(("ch1" : String) = "") from by decide), h0]
    exact hl
  omega

/-! ## C3 (amended) -/

theorem updateActive_fields (index : Int) (ms : List InteractiveMatch) (s : ReaderState) :
    (updateActiveSearchHighlight index ms s).currentMatchIndex = index ∧
    (updateActiveSearchHighlight index ms s).searchMatches = s.searchMatches := by
  unfold updateActiveSearchHighlight
  split <;> split <;> simp

theorem nextSearchMatch_fields (s : ReaderState) (h : s.searchMatches.length ≠ 0) :
    (nextSearchMatch none none s).searchMatches = s.searchMatches ∧
    (nextSearchMatch none none s).currentMatchIndex =
      (if s.currentMatchIndex + 1 ≥ (s.searchMatches.length : Int) then 0
       else s.currentMatchIndex + 1) := by
  unfold nextSearchMatch
  simp only [Option.getD_none]
  rw [if_neg h]
  exact ⟨(updateActive_fields _ _ _).2, (updateActive_fields _ _ _).1⟩

theorem prevSearchMatch_fields (s : ReaderState) (h : s.searchMatches.length ≠ 0) :
    (prevSearchMatch s).currentMatchIndex =
      (if s.currentMatchIndex - 1 < 0 then (s.searchMatches.length : Int) - 1
       else s.currentMatchIndex - 1) := by
  simp only [prevSearchMatch, if_neg h]
  exact (updateActive_fields _ _ _).1

theorem iterNext_reaches_first (N : Nat) :
    ∀ (m j : Nat) (s : ReaderState), s.searchMatches.length = N →
      s.currentMatchIndex = (j : Int) → j < N → m + j = N →
      (iterNext m s).currentMatchIndex = 0 ∧
      (iterNext m s).searchMatches = s.searchMatches := by
  intro m
  induction m with
  | zero =>
      intro j s _ _ h3 h4
      exact absurd h4 (by omega)
  | succ n ih =>
      intro j s h1 h2 h3 h4
      have hne : s.searchMatches.length ≠ 0 := by omega
      obtain ⟨hsm, hidx⟩ := nextSearchMatch_fields s hne
      by_cases hw : j + 1 = N
      · have hn0 : n = 0 := by omega
        subst hn0
        refine ⟨?_, hsm⟩
        show (nextSearchMatch none none s).currentMatchIndex = 0
        rw [hidx, h2, h1]
        rw [if_pos (by omega)]
      · have hstep : (nextSearchMatch none none s).currentMatchIndex = ((j + 1 : Nat) : Int) := by
          rw [hidx, h2, h1, if_neg (by omega)]
          push_cast
          ring
        have := ih (j + 1) (nextSearchMatch none none s) (by rw [hsm, h1]) hstep
          (by omega) (by omega)
        exact ⟨this.1, by rw [show iterNext (n + 1) s =
          iterNext n (nextSearchMatch none none s) from rfl, this.2, hsm]⟩

/-- C3 (amended): the wrap itself is as specified — `next()` past the last
match wraps to 0 and `previous()` below 0 wraps to N − 1 — but the initial
cursor is `-1`, so the FIRST `next()` lands on match 0 and returning to the
first match takes N + 1 calls of `next()` from the unset cursor (N calls
measured from match 0), not N.  `previous()` once from match 0 (the state
one `next()` after the unset cursor) lands on match N − 1. -/
theorem searchCursor_wrap_amended (s : ReaderState) (N : Nat) (hN : 1 ≤ N)
    (hlen : s.searchMatches.length = N) (hidx : s.currentMatchIndex = -1) :
    (iterNext (N + 1) s).currentMatchIndex = 0 ∧
    (prevSearchMatch (iterNext 1 s)).currentMatchIndex = (N : Int) - 1 := by
  have hne : s.searchMatches.length ≠ 0 := by omega
  obtain ⟨hsm, hi⟩ := nextSearchMatch_fields s hne
  have h0 : (nextSearchMatch none none s).currentMatchIndex = 0 := by
    rw [hi, hidx]
    split <;> omega
  constructor
  · have := iterNext_reaches_first N N 0 (nextSearchMatch none none s)
      (by rw [hsm, hlen]) (by rw [h0]; rfl) (by omega) (by omega)
    exact this.1
  · show (prevSearchMatch (nextSearchMatch none none s)).currentMatchIndex = (N : Int) - 1
    have h1ne : (nextSearchMatch none none s).searchMatches.length ≠ 0 := by
      rw [hsm]; omega
    rw [prevSearchMatch_fields _ h1ne, h0, hsm, hlen]
    rw [if_pos (by omega)]

/-- C3 witness: with 2 matches and the unset cursor, 3 calls of `next()`
return to match 0, and `previous()` from match 0 lands on match 1. -/
theorem searchCursor_wrap_witness :
    (iterNext (2 + 1) c3TwoMatchState).currentMatchIndex = 0 ∧
    (prevSearchMatch (iterNext 1 c3TwoMatchState)).currentMatchIndex = ((2 : Nat) : Int) - 1 :=
  searchCursor_wrap_amended c3TwoMatchState 2 (by norm_num) (by decide) (by decide)

/-! ## C8 (amended) -/

theorem removeInlineNote_inlineNotes (id : String) (s : ReaderState) :
    (removeInlineNote id s).inlineNotes =
      s.inlineNotes.filter fun n => !decide (n.id = id) := by
  unfold removeInlineNote
  rcases h : s.inlineNotes.find? fun n => decide (n.id = id) with _ | n
  · simp [h]
  · rcases hd : n.domNode with _ | nd <;> simp [h, hd]

theorem removeInlineNote_of_find_none (id : String) (s : ReaderState)
    (h : (s.inlineNotes.find? fun n => decide (n.id = id)) = none) :
    removeInlineNote id s =
      { s with inlineNotes := s.inlineNotes.filter fun n => !decide (n.id = id) } := by
  simp [removeInlineNote, h]

/-- C8 (amended): dismissing the same inline note twice and removing the
same overlay (anchor, kind) twice are idempotent and error-free, and
deleting the same annotation anchor twice leaves the component state
(annotations, overlays, notes) unchanged — but the second delete still
re-saves the bundle, so the persisted entry for the open book is re-stamped
with the new `lastRead`; every other stored field and every other book's
bundle are unchanged. -/
theorem dismiss_removeOverlay_delete_idempotent :
    (∀ id s, removeInlineNote id (removeInlineNote id s) = removeInlineNote id s) ∧
    (∀ ovs cfi t, removeOverlay (removeOverlay ovs cfi t) cfi t =
       removeOverlay ovs cfi t) ∧
    (∀ cfi bid s store now₁ now₂,
       (handleRemoveAnn cfi bid (handleRemoveAnn cfi bid s store now₁).1
           (handleRemoveAnn cfi bid s store now₁).2 now₂).1 =
         (handleRemoveAnn cfi bid s store now₁).1) ∧
    (∀ cfi bid' s store now₁ now₂ o,
       lookupStore (handleRemoveAnn cfi (some bid')
           (handleRemoveAnn cfi (some bid') s store now₁).1
           (handleRemoveAnn cfi (some bid') s store now₁).2 now₂).2 o =
         (if o = bid' then
            (lookupStore (handleRemoveAnn cfi (some bid') s store now₁).2 o).map
              (fun b => { b with lastRead := some now₂ })
          else lookupStore (handleRemoveAnn cfi (some bid') s store now₁).2 o)) := by
  refine ⟨?_, ?_, ?_, ?_⟩
  · intro id s
    have houter : ((removeInlineNote id s).inlineNotes.find?
        fun n => decide (n.id = id)) = none := by
      rw [removeInlineNote_inlineNotes]
      exact find?_filter_not _ _
    rw [removeInlineNote_of_find_none id _ houter, removeInlineNote_inlineNotes,
      filter_idem, ← removeInlineNote_inlineNotes id s]
  · intro ovs cfi t
    unfold removeOverlay
    exact filter_idem _ _
  · intro cfi bid s store now₁ now₂
    unfold handleRemoveAnn removeOverlay
    simp only [filter_four, filter_idem]
  · intro cfi bid' s store now₁ now₂ o
    by_cases ho : o = bid'
    · subst ho
      simp only [handleRemoveAnn, removeOverlay, saveUserData, filter_idem]
      rw [lookupStore_setStore_self, lookupStore_setStore_self]
      simp [spreadUserData, mergeField]
    · simp only [handleRemoveAnn, saveUserData, if_neg ho]
      rw [lookupStore_setStore_other _ _ _ _ ho]

end Lumina
